import Mathlib

/-!
Shallow embedding of the message-resolution and forwarding logic of the
repository (two variants of an Azure Function handler):

* variant A: `src/forwardEmail/index.js` — remote filter built from subject
  and body-content snippet; local validation of recipients only; optional
  EWS-id translation precursor in the handler.
* variant B: `src/unnamed/part_000` — remote filter built from subject or,
  failing that, the first recipient; local validation of subject and
  recipients.

Strings are embedded as `List Char` (`Str`).  JavaScript string operations
used by the code (`trim`, `toLowerCase`, `split`, the quote-doubling
`replace`) are embedded as explicit list functions.  The Microsoft Graph
client is an external collaborator: each remote call is a function
parameter, so claims about calls never being made become statements that
the result is the same for every possible collaborator.
-/

abbrev Str := List Char

/-- The single-quote character, written by code point to keep the sources
free of literal quote characters. -/
def quoteChar : Char := Char.ofNat 39

/-- Embedding of JavaScript `String.prototype.trim` (ASCII whitespace). -/
def jsTrim (s : Str) : Str :=
  ((s.dropWhile Char.isWhitespace).reverse.dropWhile Char.isWhitespace).reverse

/-- Embedding of JavaScript `String.prototype.toLowerCase` (ASCII). -/
def jsToLower (s : Str) : Str := s.map Char.toLower

/-- Embedding of JavaScript `split(";")`: splits at every semicolon,
keeping empty pieces. -/
def splitOnSemi : Str → List Str
  | [] => [[]]
  | c :: cs =>
    if c = ';' then [] :: splitOnSemi cs
    else
      match splitOnSemi cs with
      | [] => [[c]]
      | p :: ps => (c :: p) :: ps

/-- Embedding of `str.replace(/'/g, "''")`: every single quote is doubled. -/
def escapeChars : Str → Str
  | [] => []
  | c :: cs => if c = quoteChar then c :: c :: escapeChars cs else c :: escapeChars cs

/-- Inverse reading of the escaping: a doubled quote is read back as one
quote (used to state the round-trip property of the escaping step). -/
def unescapeChars : Str → Str
  | [] => []
  | [c] => [c]
  | c :: c2 :: cs =>
    if c = quoteChar ∧ c2 = quoteChar then c :: unescapeChars cs
    else c :: unescapeChars (c2 :: cs)

/-- Embedding of `encodeOData = (str) => str ? str.replace(/'/g, "''").trim() : ""`
(both variants, line 9).  `none` models an absent (undefined) argument. -/
def encodeOData : Option Str → Str
  | none => []
  | some s => if s = [] then [] else jsTrim (escapeChars s)

/-- Embedding of
`recipientsFromRequest ? recipientsFromRequest.split(";").map(r => r.trim().toLowerCase()).filter(r => r) : []`
(variant A line 58, variant B line 15). -/
def fullRecipientList : Option Str → List Str
  | none => []
  | some s =>
    if s = [] then []
    else ((splitOnSemi s).map (fun r => jsToLower (jsTrim r))).filter (fun r => r ≠ [])

/-- One entry of `message.toRecipients`; `emailAddress = some a` models a
recipient object whose `emailAddress.address` is `a`, `none` models a
missing `emailAddress` object or a missing `address` field. -/
structure Recipient where
  emailAddress : Option Str
deriving DecidableEq

/-- The fields of a Graph message summary that the resolver selects
(`id,receivedDateTime,subject,toRecipients`); the receive timestamp is
embedded as the integer instant `new Date(receivedDateTime)` parses to. -/
structure MessageSummary where
  id : Str
  receivedDateTime : Int
  subject : Option Str
  toRecipients : List Recipient
deriving DecidableEq

/-- Embedding of the per-message recipient set
`new Set(message.toRecipients.map(r => r.emailAddress && r.emailAddress.address ? r.emailAddress.address.toLowerCase() : null).filter(Boolean))`
(variant A lines 71 to 73, variant B lines 71 to 73). -/
def messageRecipientsSet (m : MessageSummary) : List Str :=
  (m.toRecipients.map (fun r =>
    match r.emailAddress with
    | some a => if a = [] then (none : Option Str) else some (jsToLower a)
    | none => none)).filterMap (fun x => x)

/-- Embedding of the recipient-validation block shared by both variants
(variant A lines 65 to 89, variant B lines 67 to 88): vacuously true when
no recipients were expected, false when recipients were expected but the
message has none, otherwise every expected recipient must be in the
message recipient set. -/
def recipientsMatch (expected : List Str) (m : MessageSummary) : Bool :=
  if expected.length > 0 then
    if m.toRecipients.length > 0 then
      expected.all (fun e => (messageRecipientsSet m).contains e)
    else false
  else true

/-- A clause of the OData filter expression sent to the remote store. -/
inductive FilterClause where
  | subjectEq (v : Str)
  | bodyContains (v : Str)
  | recipientAny (v : Str)
deriving DecidableEq

/-- True exactly on the `toRecipients/any(...)` clause shape. -/
def isRecipientClause : FilterClause → Bool
  | FilterClause.recipientAny _ => true
  | _ => false

/-- Embedding of the filter construction of variant A
(`src/forwardEmail/index.js` lines 11 to 30): subject-equality clause when
the encoded subject is nonempty, then body-containment clause when the
encoded snippet is nonempty. -/
def buildFilterA (subjectFromRequest contentSnippetFromRequest : Option Str) : List FilterClause :=
  let encodedSubject := encodeOData subjectFromRequest
  let encodedContentSnippet := encodeOData contentSnippetFromRequest
  (if encodedSubject ≠ [] then [FilterClause.subjectEq encodedSubject] else []) ++
    (if encodedContentSnippet ≠ [] then [FilterClause.bodyContains encodedContentSnippet] else [])

/-- Embedding of the filter construction of variant B
(`src/unnamed/part_000` lines 14 to 27): subject-equality clause when the
encoded subject is nonempty, otherwise a first-recipient clause when the
parsed recipient list is nonempty and its first entry encodes nonempty. -/
def buildFilterB (subjectFromRequest recipientsFromRequest : Option Str) : List FilterClause :=
  let encodedSubject := encodeOData subjectFromRequest
  let firstRecipientEncoded : Option Str :=
    match fullRecipientList recipientsFromRequest with
    | [] => none
    | r0 :: _ => some (encodeOData (some r0))
  if encodedSubject ≠ [] then [FilterClause.subjectEq encodedSubject]
  else
    match firstRecipientEncoded with
    | some fr => if fr ≠ [] then [FilterClause.recipientAny fr] else []
    | none => []

/-- Embedding of the insertion step of the client-side sort
`validatedMessages.sort((a, b) => new Date(b.receivedDateTime) - new Date(a.receivedDateTime))`:
the comparator orders by receive timestamp, descending. -/
def insertByDesc (m : MessageSummary) : List MessageSummary → List MessageSummary
  | [] => [m]
  | x :: xs =>
    if m.receivedDateTime > x.receivedDateTime then m :: x :: xs
    else x :: insertByDesc m xs

/-- Descending sort of the validated messages by receive timestamp
(variant A line 99, variant B line 97). -/
def sortByReceivedDesc : List MessageSummary → List MessageSummary
  | [] => []
  | m :: ms => insertByDesc m (sortByReceivedDesc ms)

/-- Embedding of the post-fetch block shared by both variants: when the
response is nonempty, filter the candidates through the local validation
predicate, sort the survivors by receive timestamp descending and return
the id of the first, or nothing when no candidate survives (variant A
lines 52 to 112, variant B lines 48 to 109). -/
def processCandidates (validate : MessageSummary → Bool) (msgs : List MessageSummary) : Option Str :=
  if msgs.length > 0 then
    match sortByReceivedDesc (msgs.filter validate) with
    | latest :: _ => some latest.id
    | [] => none
  else none

/-- The local validation predicate of variant A: the API filter already
handled subject and snippet, so only recipients are re-checked
(`src/forwardEmail/index.js` lines 62 to 95). -/
def validA (recipientsFromRequest : Option Str) (m : MessageSummary) : Bool :=
  recipientsMatch (fullRecipientList recipientsFromRequest) m

/-- Embedding of `message.subject ? message.subject.trim().toLowerCase() : ""`
(variant B line 56). -/
def normalizedSubject (m : MessageSummary) : Str :=
  match m.subject with
  | some ms => if ms = [] then [] else jsToLower (jsTrim ms)
  | none => []

/-- Embedding of the local subject validation of variant B
(`src/unnamed/part_000` lines 54 to 65): skipped when the request subject
is absent or empty, otherwise the normalized candidate subject is compared
with the lowercased OData-encoded request subject. -/
def subjectMatchB (subjectFromRequest : Option Str) (m : MessageSummary) : Bool :=
  match subjectFromRequest with
  | none => true
  | some s =>
    if s = [] then true
    else
      let encodedSubject := encodeOData (some s)
      normalizedSubject m == (if encodedSubject ≠ [] then jsToLower encodedSubject else [])

/-- The local validation predicate of variant B: subject check then
recipient check, each skipping to the next candidate on failure
(`src/unnamed/part_000` lines 53 to 93). -/
def validB (subjectFromRequest recipientsFromRequest : Option Str) (m : MessageSummary) : Bool :=
  subjectMatchB subjectFromRequest m &&
    recipientsMatch (fullRecipientList recipientsFromRequest) m

/-- Outcome of one `searchMessageByMetadata` call.  `insufficientCriteria`
is the error thrown before the Graph call when no filter clause could be
built; `remoteError` propagates a failed Graph call; `found`/`notFound`
are the non-null/null returns. -/
inductive SearchOutcome where
  | insufficientCriteria
  | remoteError (msg : Str)
  | found (id : Str)
  | notFound
deriving DecidableEq

/-- Embedding of `searchMessageByMetadata` of variant A
(`src/forwardEmail/index.js` lines 7 to 121).  The Graph list call
(`filter(...).top(15).select(...)`) is the collaborator `remote`, a
function of the built filter. -/
def searchA (subjectFromRequest recipientsFromRequest contentSnippetFromRequest : Option Str)
    (remote : List FilterClause → Except Str (List MessageSummary)) : SearchOutcome :=
  let filterParts := buildFilterA subjectFromRequest contentSnippetFromRequest
  if filterParts.length = 0 then SearchOutcome.insufficientCriteria
  else
    match remote filterParts with
    | Except.error e => SearchOutcome.remoteError e
    | Except.ok msgs =>
      match processCandidates (validA recipientsFromRequest) msgs with
      | some mid => SearchOutcome.found mid
      | none => SearchOutcome.notFound

/-- Embedding of `searchMessageByMetadata` of variant B
(`src/unnamed/part_000` lines 7 to 114). -/
def searchB (subjectFromRequest recipientsFromRequest : Option Str)
    (remote : List FilterClause → Except Str (List MessageSummary)) : SearchOutcome :=
  let filterParts := buildFilterB subjectFromRequest recipientsFromRequest
  if filterParts.length = 0 then SearchOutcome.insufficientCriteria
  else
    match remote filterParts with
    | Except.error e => SearchOutcome.remoteError e
    | Except.ok msgs =>
      match processCandidates (validB subjectFromRequest recipientsFromRequest) msgs with
      | some mid => SearchOutcome.found mid
      | none => SearchOutcome.notFound

/-- What the handler does at the end of its resolution phase: either it
has already sent an HTTP response with the given status, or it proceeds to
the forwarding phase with a message id. -/
inductive ResolutionStep where
  | respond (status : Nat)
  | proceed (messageId : Str)
deriving DecidableEq

/-- Outcome of the `translateExchangeIds` collaborator call of variant A:
`ok` with the returned `targetId`, `invalid` when the call returned but
without a usable value array, `err` when the call threw. -/
inductive TranslateResult where
  | ok (targetId : Str)
  | invalid
  | err (msg : Str)
deriving DecidableEq

/-- Embedding of the resolution phase of the variant A handler
(`src/forwardEmail/index.js` lines 153 to 207): optional EWS-id
translation, then the metadata search when no id was obtained and the
fallback flag is set, then the final null check.  The empty string stands
for the JavaScript null/undefined/empty id (all falsy). -/
def resolveA (ewsItemId : Option Str)
    (subjectFromRequest recipientsFromRequest contentSnippetFromRequest : Option Str)
    (useMetadataSearch : Bool) (translate : TranslateResult)
    (remote : List FilterClause → Except Str (List MessageSummary)) : ResolutionStep :=
  let ewsSupplied : Bool :=
    match ewsItemId with
    | some e => !(e == []) && !(jsTrim e == [])
    | none => false
  let step1 : Except Nat Str :=
    if ewsSupplied then
      match translate with
      | TranslateResult.ok t => Except.ok t
      | TranslateResult.invalid => Except.ok []
      | TranslateResult.err _ =>
        if useMetadataSearch then Except.ok [] else Except.error 400
    else Except.ok []
  match step1 with
  | Except.error s => ResolutionStep.respond s
  | Except.ok mid1 =>
    let step2 : Except Nat Str :=
      if mid1 == [] && useMetadataSearch then
        match searchA subjectFromRequest recipientsFromRequest contentSnippetFromRequest remote with
        | SearchOutcome.found mid => if mid == [] then Except.error 404 else Except.ok mid
        | SearchOutcome.notFound => Except.error 404
        | SearchOutcome.remoteError _ => Except.error 500
        | SearchOutcome.insufficientCriteria => Except.error 500
      else Except.ok mid1
    match step2 with
    | Except.error s => ResolutionStep.respond s
    | Except.ok mid2 =>
      if mid2 == [] then ResolutionStep.respond 400 else ResolutionStep.proceed mid2

/-- Embedding of the resolution phase of the variant B handler
(`src/unnamed/part_000` lines 141 to 161): the metadata search always
runs; a thrown search error yields 500, a null result 404. -/
def resolveB (subjectFromRequest recipientsFromRequest : Option Str)
    (remote : List FilterClause → Except Str (List MessageSummary)) : ResolutionStep :=
  match searchB subjectFromRequest recipientsFromRequest remote with
  | SearchOutcome.found mid =>
    if mid == [] then ResolutionStep.respond 404 else ResolutionStep.proceed mid
  | SearchOutcome.notFound => ResolutionStep.respond 404
  | SearchOutcome.remoteError _ => ResolutionStep.respond 500
  | SearchOutcome.insufficientCriteria => ResolutionStep.respond 500

/-- The three attachment type markers the code recognises. -/
def fileAttachmentType : Str := "#microsoft.graph.fileAttachment".data

/-- Item attachment type marker. -/
def itemAttachmentType : Str := "#microsoft.graph.itemAttachment".data

/-- Reference attachment type marker. -/
def referenceAttachmentType : Str := "#microsoft.graph.referenceAttachment".data

/-- JavaScript truthiness of an optional string field: absent, null and
empty are falsy. -/
def truthyStr : Option Str → Bool
  | none => false
  | some s => !(s == [])

/-- An attachment of the original message, with the fields the copy loop
reads.  `item` abstracts the nested item payload as an opaque string. -/
structure Attachment where
  odataType : Str
  name : Str
  contentType : Str
  contentBytes : Option Str
  item : Option Str
  sourceUrl : Option Str
  providerType : Option Str
  permission : Option Str
  isFolder : Option Bool
deriving DecidableEq

/-- The `attachmentData` object posted to the draft. -/
structure AttachmentData where
  odataType : Str
  name : Str
  contentType : Str
  contentBytes : Option Str := none
  item : Option Str := none
  sourceUrl : Option Str := none
  providerType : Option Str := none
  permission : Option Str := none
  isFolder : Option Bool := none
deriving DecidableEq

/-- Per-attachment outcome of the copy loop body: skipped with a warning
(unsupported type, or known type missing its payload), posted
successfully, or post failed and the error was caught and logged. -/
inductive AttachStepResult where
  | skippedUnsupported
  | skippedMissingData
  | posted (d : AttachmentData)
  | postFailed (e : Str)
deriving DecidableEq

/-- Embedding of the body of the attachment copy loop
(variant A lines 239 to 274, variant B lines 190 to 225): build
`attachmentData`, branch on the declared type and payload presence, skip
with a warning when the type is unknown or the payload is missing, and
otherwise post to the draft, catching a failed post. -/
def copyAttachment (post : AttachmentData → Except Str Unit) (a : Attachment) : AttachStepResult :=
  let base : AttachmentData :=
    { odataType := a.odataType, name := a.name, contentType := a.contentType }
  let doPost : AttachmentData → AttachStepResult := fun d =>
    match post d with
    | Except.ok _ => AttachStepResult.posted d
    | Except.error e => AttachStepResult.postFailed e
  if a.odataType == fileAttachmentType && truthyStr a.contentBytes then
    doPost { base with contentBytes := a.contentBytes }
  else if a.odataType == itemAttachmentType && truthyStr a.item then
    doPost { base with item := a.item }
  else if a.odataType == referenceAttachmentType && truthyStr a.sourceUrl &&
      truthyStr a.providerType then
    doPost { base with sourceUrl := a.sourceUrl, providerType := a.providerType,
                       permission := if truthyStr a.permission then a.permission else none,
                       isFolder := a.isFolder }
  else if !(a.odataType == fileAttachmentType) && !(a.odataType == itemAttachmentType) &&
      !(a.odataType == referenceAttachmentType) then
    AttachStepResult.skippedUnsupported
  else if !(truthyStr base.contentBytes) && !(truthyStr base.item) &&
      !(truthyStr base.sourceUrl) &&
      (a.odataType == fileAttachmentType || a.odataType == itemAttachmentType ||
        a.odataType == referenceAttachmentType) then
    AttachStepResult.skippedMissingData
  else
    doPost base

/-- The whole copy loop: one step per attachment, in order; no step aborts
the loop. -/
def copyAllAttachments (post : AttachmentData → Except Str Unit)
    (atts : List Attachment) : List AttachStepResult :=
  atts.map (copyAttachment post)

/-- The attachment phase followed by the send of the draft
(variant A lines 237 to 279, variant B lines 188 to 230): the loop always
runs to completion and the send is attempted regardless of individual
attachment outcomes. -/
def forwardAttachmentsAndSend (post : AttachmentData → Except Str Unit)
    (send : Except Str Unit) (atts : List Attachment) : Except Str (List AttachStepResult) :=
  let results := copyAllAttachments post atts
  match send with
  | Except.ok _ => Except.ok results
  | Except.error e => Except.error e

/-- The two candidates of the worked scenario of the spec: same subject,
the first with the full recipient set and the earlier timestamp. -/
def msgQ3a : MessageSummary :=
  { id := "1".data, receivedDateTime := 100, subject := some "Q3 Report".data,
    toRecipients := [{ emailAddress := some "a@x.com".data },
                     { emailAddress := some "b@x.com".data },
                     { emailAddress := some "c@x.com".data }] }

/-- Second scenario candidate: later timestamp but only one recipient. -/
def msgQ3b : MessageSummary :=
  { id := "2".data, receivedDateTime := 200, subject := some "Q3 Report".data,
    toRecipients := [{ emailAddress := some "a@x.com".data }] }

/-- A subject containing a literal single quote. -/
def subjWithQuote : Str := ['a', quoteChar]

/-- A candidate whose subject is byte-identical to `subjWithQuote`. -/
def msgWithQuote : MessageSummary :=
  { id := "7".data, receivedDateTime := 0, subject := some subjWithQuote, toRecipients := [] }

/-- A string with a quote between leading and trailing whitespace. -/
def wsQuoteWs : Str := [' ', quoteChar, ' ']

/-- A whitespace-only string. -/
def wsOnly : Str := [' ']

/-- A candidate with a nonempty subject and one recipient. -/
def helloMsg : MessageSummary :=
  { id := "3".data, receivedDateTime := 1, subject := some "Hello".data,
    toRecipients := [{ emailAddress := some "a@x.com".data }] }

/-- A candidate with no recipients at all. -/
def msgNoRecipients : MessageSummary :=
  { id := "9".data, receivedDateTime := 5, subject := some "s".data, toRecipients := [] }

/-- An attachment with an unrecognised type marker. -/
def unknownAttachment : Attachment :=
  { odataType := "#microsoft.graph.weird".data, name := "n".data, contentType := "c".data,
    contentBytes := none, item := none, sourceUrl := none, providerType := none,
    permission := none, isFolder := none }

/-! Helper lemmas about the embedded string operations and the selection
pipeline. -/

theorem escapeChars_append (xs ys : Str) :
    escapeChars (xs ++ ys) = escapeChars xs ++ escapeChars ys := by
  induction xs with
  | nil => rfl
  | cons c cs ih => by_cases h : c = quoteChar <;> simp [escapeChars, h, ih]

theorem escapeChars_reverse (s : Str) : escapeChars s.reverse = (escapeChars s).reverse := by
  induction s with
  | nil => rfl
  | cons c cs ih =>
    by_cases h : c = quoteChar <;>
      simp [escapeChars, h, escapeChars_append, ih, List.reverse_cons]

theorem dropWhile_ws_escapeChars (s : Str) :
    (escapeChars s).dropWhile Char.isWhitespace = escapeChars (s.dropWhile Char.isWhitespace) := by
  induction s with
  | nil => rfl
  | cons c cs ih =>
    by_cases hq : c = quoteChar
    · subst hq
      have hws : quoteChar.isWhitespace = false := by decide
      simp [escapeChars, List.dropWhile_cons, hws]
    · by_cases hw : c.isWhitespace
      · simp [escapeChars, hq, List.dropWhile_cons, hw, ih]
      · simp [escapeChars, hq, List.dropWhile_cons, hw]

theorem escapeChars_eq_nil (s : Str) : escapeChars s = [] ↔ s = [] := by
  cases s with
  | nil => simp [escapeChars]
  | cons c cs => by_cases h : c = quoteChar <;> simp [escapeChars, h]

theorem jsTrim_escapeChars (s : Str) : jsTrim (escapeChars s) = escapeChars (jsTrim s) := by
  unfold jsTrim
  rw [dropWhile_ws_escapeChars, ← escapeChars_reverse, dropWhile_ws_escapeChars,
    ← escapeChars_reverse]

theorem unescape_escape (s : Str) : unescapeChars (escapeChars s) = s := by
  induction s with
  | nil => rfl
  | cons c cs ih =>
    by_cases hq : c = quoteChar
    · subst hq
      simp [escapeChars, unescapeChars, ih]
    · cases hcs : escapeChars cs with
      | nil =>
        have hnil : cs = [] := (escapeChars_eq_nil cs).mp hcs
        subst hnil
        simp [escapeChars, hq, unescapeChars]
      | cons e1 es =>
        have h1 : escapeChars (c :: cs) = c :: e1 :: es := by simp [escapeChars, hq, hcs]
        rw [h1]
        simp [unescapeChars, hq]
        rw [← hcs, ih]

theorem sortByReceivedDesc_head (l : List MessageSummary) (h : l ≠ []) :
    ∃ m t, sortByReceivedDesc l = m :: t ∧ m ∈ l ∧
      ∀ x ∈ l, x.receivedDateTime ≤ m.receivedDateTime := by
  induction l with
  | nil => exact absurd rfl h
  | cons a ls ih =>
    cases ls with
    | nil =>
      refine ⟨a, [], by simp [sortByReceivedDesc, insertByDesc], by simp, ?_⟩
      intro x hx
      simp at hx
      simp [hx]
    | cons b ls2 =>
      obtain ⟨m, t, hsort, hmem, hmax⟩ := ih (by simp)
      have hstep : sortByReceivedDesc (a :: b :: ls2) = insertByDesc a (m :: t) := by
        have hu : sortByReceivedDesc (a :: b :: ls2)
            = insertByDesc a (sortByReceivedDesc (b :: ls2)) := rfl
        rw [hu, hsort]
      by_cases hgt : a.receivedDateTime > m.receivedDateTime
      · refine ⟨a, m :: t, ?_, by simp, ?_⟩
        · rw [hstep]
          simp only [insertByDesc]
          rw [if_pos hgt]
        · intro x hx
          rcases List.mem_cons.mp hx with rfl | hx2
          · exact le_refl _
          · exact le_of_lt (lt_of_le_of_lt (hmax x hx2) hgt)
      · refine ⟨m, insertByDesc a t, ?_, List.mem_cons_of_mem a hmem, ?_⟩
        · rw [hstep]
          simp only [insertByDesc]
          rw [if_neg hgt]
        · intro x hx
          rcases List.mem_cons.mp hx with rfl | hx2
          · exact not_lt.mp hgt
          · exact hmax x hx2

theorem processCandidates_latest (validate : MessageSummary → Bool) (msgs : List MessageSummary)
    (h : msgs.filter validate ≠ []) :
    ∃ m, m ∈ msgs.filter validate ∧ processCandidates validate msgs = some m.id ∧
      ∀ x ∈ msgs.filter validate, x.receivedDateTime ≤ m.receivedDateTime := by
  obtain ⟨m, t, hsort, hmem, hmax⟩ := sortByReceivedDesc_head _ h
  have hlen : msgs.length > 0 := by
    cases msgs with
    | nil => simp at h
    | cons _ _ => simp
  refine ⟨m, hmem, ?_, hmax⟩
  unfold processCandidates
  rw [if_pos hlen, hsort]

theorem processCandidates_eq_none (validate : MessageSummary → Bool) (msgs : List MessageSummary)
    (h : msgs.filter validate = []) : processCandidates validate msgs = none := by
  unfold processCandidates
  rw [h]
  by_cases hl : msgs.length > 0 <;> simp [hl, sortByReceivedDesc]

theorem processCandidates_pair (v : MessageSummary → Bool) (a b : MessageSummary)
    (ha : v a = true) (hb : v b = true) (hlt : b.receivedDateTime < a.receivedDateTime) :
    processCandidates v [a, b] = some a.id ∧ processCandidates v [b, a] = some a.id := by
  have hab : ¬ a.receivedDateTime < b.receivedDateTime := lt_asymm hlt
  constructor
  · unfold processCandidates
    rw [if_pos (by simp)]
    have hf : [a, b].filter v = [a, b] := by simp [List.filter, ha, hb]
    rw [hf]
    simp [sortByReceivedDesc, insertByDesc, hlt, gt_iff_lt]
  · unfold processCandidates
    rw [if_pos (by simp)]
    have hf : [b, a].filter v = [b, a] := by simp [List.filter, ha, hb]
    rw [hf]
    simp [sortByReceivedDesc, insertByDesc, hab, gt_iff_lt]

theorem recipientsMatch_iff (E : List Str) (m : MessageSummary) :
    recipientsMatch E m = true ↔ ∀ e ∈ E, e ∈ messageRecipientsSet m := by
  unfold recipientsMatch
  cases E with
  | nil => simp
  | cons e es =>
    cases hR : m.toRecipients with
    | nil =>
      have hset : messageRecipientsSet m = [] := by simp [messageRecipientsSet, hR]
      simp [hR, hset]
      exact ⟨e, fun hne => absurd rfl hne⟩
    | cons r rs => simp [hR, List.all_eq_true, List.contains]

/-! Claim theorems. -/

/-- C1 counterexample: a SearchCriteria with no subject, no snippet and no
legacy identifier, but with a recipient, does not fail with the
insufficient-criteria error in the subject+recipients variant; the
outcome depends on the remote list call, so a remote call is made. -/
theorem c1_counterexample :
    searchB none (some "a@x.com".data) (fun _ => Except.ok []) = SearchOutcome.notFound ∧
    searchB none (some "a@x.com".data) (fun _ => Except.ok []) ≠
      SearchOutcome.insufficientCriteria ∧
    searchB none (some "a@x.com".data) (fun _ => Except.error "down".data) =
      SearchOutcome.remoteError "down".data := by
  refine ⟨by decide, by decide, by decide⟩

/-- C1 (amended): with no subject and no snippet, the subject+snippet
variant always fails with the insufficient-criteria error, for every
possible remote collaborator (so before any remote call), regardless of
recipients; the subject+recipients variant does so exactly as far as the
parsed recipient list is also empty. -/
theorem c1_insufficient_criteria :
    (∀ (recipients : Option Str) (remote : List FilterClause → Except Str (List MessageSummary)),
        searchA none recipients none remote = SearchOutcome.insufficientCriteria) ∧
    (∀ (recipients : Option Str) (remote : List FilterClause → Except Str (List MessageSummary)),
        fullRecipientList recipients = [] →
        searchB none recipients remote = SearchOutcome.insufficientCriteria) := by
  constructor
  · intro recipients remote
    rfl
  · intro recipients remote h
    simp [searchB, buildFilterB, encodeOData, h]

/-- C1 witness: the amended theorem applied at concrete criteria. -/
theorem c1_witness :
    searchA none (some "a@x.com".data) none (fun _ => Except.ok []) =
      SearchOutcome.insufficientCriteria ∧
    searchB none none (fun _ => Except.ok []) = SearchOutcome.insufficientCriteria :=
  ⟨c1_insufficient_criteria.1 (some "a@x.com".data) (fun _ => Except.ok []),
   c1_insufficient_criteria.2 none (fun _ => Except.ok []) (by decide)⟩

/-- C2: recipient validation passes exactly when every parsed expected
address (split on semicolons, trimmed, lowercased, empties dropped) is in
the candidate message recipient set; an empty expected set passes every
candidate; a candidate without recipients fails whenever the expected set
is nonempty. -/
theorem c2_recipient_validation :
    ∀ (recipients : Option Str) (m : MessageSummary),
      (recipientsMatch (fullRecipientList recipients) m = true ↔
        ∀ e ∈ fullRecipientList recipients, e ∈ messageRecipientsSet m) ∧
      (fullRecipientList recipients = [] →
        recipientsMatch (fullRecipientList recipients) m = true) ∧
      (fullRecipientList recipients ≠ [] → m.toRecipients = [] →
        recipientsMatch (fullRecipientList recipients) m = false) := by
  intro recipients m
  refine ⟨recipientsMatch_iff _ _, ?_, ?_⟩
  · intro h
    rw [h]
    simp [recipientsMatch]
  · intro hne hR
    cases hE : fullRecipientList recipients with
    | nil => exact absurd hE hne
    | cons e es => simp [recipientsMatch, hE, hR]

/-- C2 witness: the characterisation applied to the scenario candidate
with the full recipient superset. -/
theorem c2_witness :
    recipientsMatch (fullRecipientList (some "a@x.com;b@x.com".data)) msgQ3a = true :=
  (c2_recipient_validation (some "a@x.com;b@x.com".data) msgQ3a).1.mpr (by decide)

/-- C3: among the candidates passing the active validation predicate the
selection returns the id of one with the maximal receive timestamp; and
for two validated candidates with distinct timestamps, in either
presentation order, the later one is selected (both variants). -/
theorem c3_latest_selected :
    (∀ (validate : MessageSummary → Bool) (msgs : List MessageSummary),
        msgs.filter validate ≠ [] →
        ∃ m, m ∈ msgs.filter validate ∧ processCandidates validate msgs = some m.id ∧
          ∀ x ∈ msgs.filter validate, x.receivedDateTime ≤ m.receivedDateTime) ∧
    (∀ (recipients : Option Str) (a b : MessageSummary),
        validA recipients a = true → validA recipients b = true →
        b.receivedDateTime < a.receivedDateTime →
        processCandidates (validA recipients) [a, b] = some a.id ∧
        processCandidates (validA recipients) [b, a] = some a.id) ∧
    (∀ (subject recipients : Option Str) (a b : MessageSummary),
        validB subject recipients a = true → validB subject recipients b = true →
        b.receivedDateTime < a.receivedDateTime →
        processCandidates (validB subject recipients) [a, b] = some a.id ∧
        processCandidates (validB subject recipients) [b, a] = some a.id) := by
  refine ⟨processCandidates_latest, ?_, ?_⟩
  · intro recipients a b ha hb hlt
    exact processCandidates_pair _ a b ha hb hlt
  · intro subject recipients a b ha hb hlt
    exact processCandidates_pair _ a b ha hb hlt

/-- C3 witness: with no expected recipients both scenario candidates are
validated and the one with the later timestamp is selected in both
orders. -/
theorem c3_witness :
    processCandidates (validA none) [msgQ3b, msgQ3a] = some msgQ3b.id ∧
    processCandidates (validA none) [msgQ3a, msgQ3b] = some msgQ3b.id :=
  c3_latest_selected.2.1 none msgQ3b msgQ3a (by decide) (by decide) (by decide)

/-- C4 counterexample: in the subject+recipients variant, criteria with no
subject and one recipient produce a remote filter consisting of a
recipient predicate, contradicting that the remote filter never contains
one. -/
theorem c4_counterexample :
    buildFilterB none (some "a@x.com".data) = [FilterClause.recipientAny "a@x.com".data] ∧
    isRecipientClause (FilterClause.recipientAny "a@x.com".data) = true := by
  refine ⟨by decide, by decide⟩

/-- C4 (amended): the subject+snippet variant builds filters from subject
equality and body containment only, never a recipient predicate; in the
subject+recipients variant a recipient predicate occurs only when the
encoded subject is empty, and then the whole filter is the single
first-recipient clause, recipient-set matching remaining local. -/
theorem c4_remote_filter_shape :
    (∀ (subject snippet : Option Str) (cl : FilterClause), cl ∈ buildFilterA subject snippet →
        (∃ v, cl = FilterClause.subjectEq v) ∨ (∃ v, cl = FilterClause.bodyContains v)) ∧
    (∀ (subject recipients : Option Str) (cl : FilterClause),
        cl ∈ buildFilterB subject recipients → isRecipientClause cl = true →
        encodeOData subject = [] ∧
        ∃ r0 rest, fullRecipientList recipients = r0 :: rest ∧
          buildFilterB subject recipients =
            [FilterClause.recipientAny (encodeOData (some r0))]) := by
  constructor
  · intro subject snippet cl hcl
    simp only [buildFilterA] at hcl
    rcases List.mem_append.mp hcl with h | h
    · left
      by_cases hs : encodeOData subject ≠ []
      · rw [if_pos hs] at h
        simp at h
        exact ⟨_, h⟩
      · rw [if_neg hs] at h
        simp at h
    · right
      by_cases hc : encodeOData snippet ≠ []
      · rw [if_pos hc] at h
        simp at h
        exact ⟨_, h⟩
      · rw [if_neg hc] at h
        simp at h
  · intro subject recipients cl hcl hrec
    simp only [buildFilterB] at hcl
    by_cases hs : encodeOData subject ≠ []
    · rw [if_pos hs] at hcl
      simp at hcl
      rw [hcl] at hrec
      simp [isRecipientClause] at hrec
    · rw [if_neg hs] at hcl
      have hsub : encodeOData subject = [] := not_not.mp hs
      refine ⟨hsub, ?_⟩
      cases hE : fullRecipientList recipients with
      | nil =>
        rw [hE] at hcl
        simp at hcl
      | cons r0 rest =>
        rw [hE] at hcl
        by_cases hfr : encodeOData (some r0) ≠ []
        · refine ⟨r0, rest, rfl, ?_⟩
          simp [buildFilterB, hsub, hE, hfr]
        · simp [hfr] at hcl

/-- C4 witness: both components of the amended theorem applied at
concrete criteria. -/
theorem c4_witness :
    ((∃ v, FilterClause.subjectEq "s".data = FilterClause.subjectEq v) ∨
      (∃ v, FilterClause.subjectEq "s".data = FilterClause.bodyContains v)) ∧
    (encodeOData none = [] ∧
      ∃ r0 rest, fullRecipientList (some "a@y.com".data) = r0 :: rest ∧
        buildFilterB none (some "a@y.com".data) =
          [FilterClause.recipientAny (encodeOData (some r0))]) :=
  ⟨c4_remote_filter_shape.1 (some "s".data) none (FilterClause.subjectEq "s".data) (by decide),
   c4_remote_filter_shape.2 none (some "a@y.com".data)
     (FilterClause.recipientAny "a@y.com".data) (by decide) (by decide)⟩

/-- C5: evaluation of the local subject validation at the failing input.
The candidate subject is byte-identical to the criterion subject (so they
are trivially equal after trimming and case folding), yet the validation
rejects the candidate, because the comparison uses the OData-encoded
criterion in which the quote has been doubled. -/
theorem c5_quote_subject_rejected :
    subjectMatchB (some subjWithQuote) msgWithQuote = false ∧
    normalizedSubject msgWithQuote = jsToLower (jsTrim subjWithQuote) ∧
    encodeOData (some subjWithQuote) = ['a', quoteChar, quoteChar] := by
  refine ⟨by decide, by decide, by decide⟩

/-- C6 counterexample: a string with a literal quote between surrounding
whitespace is not recovered by un-doubling the embedded value, because the
encoding also trims. -/
theorem c6_counterexample :
    wsQuoteWs.contains quoteChar = true ∧
    unescapeChars (encodeOData (some wsQuoteWs)) ≠ wsQuoteWs := by
  refine ⟨by decide, by decide⟩

/-- C6 (amended): un-doubling inverts the quote-doubling exactly on every
string, and re-parsing the embedded value of a nonempty string yields the
trimmed original (hence the original itself exactly when it carries no
leading or trailing whitespace). -/
theorem c6_escape_roundtrip :
    (∀ s : Str, unescapeChars (escapeChars s) = s) ∧
    (∀ s : Str, s ≠ [] → unescapeChars (encodeOData (some s)) = jsTrim s) := by
  constructor
  · exact unescape_escape
  · intro s hs
    simp only [encodeOData]
    rw [if_neg hs, jsTrim_escapeChars, unescape_escape]

/-- C6 witness: the amended round trip applied at the counterexample
string. -/
theorem c6_witness :
    unescapeChars (encodeOData (some wsQuoteWs)) = jsTrim wsQuoteWs :=
  c6_escape_roundtrip.2 wsQuoteWs (by decide)

/-- C7: when the remote query succeeds, an empty candidate set and a
nonempty candidate set in which no candidate passes local validation give
the identical resolver outcome, and the handler of either variant reports
the identical 404 response in both cases. -/
theorem c7_notfound_collapse :
    (∀ (subject recipients snippet : Option Str)
        (remote0 remote1 : List FilterClause → Except Str (List MessageSummary))
        (msgs : List MessageSummary) (translate : TranslateResult),
        buildFilterA subject snippet ≠ [] →
        remote0 (buildFilterA subject snippet) = Except.ok [] →
        remote1 (buildFilterA subject snippet) = Except.ok msgs →
        msgs.filter (validA recipients) = [] →
        searchA subject recipients snippet remote0 = SearchOutcome.notFound ∧
        searchA subject recipients snippet remote1 = SearchOutcome.notFound ∧
        resolveA none subject recipients snippet true translate remote0 =
          ResolutionStep.respond 404 ∧
        resolveA none subject recipients snippet true translate remote1 =
          ResolutionStep.respond 404) ∧
    (∀ (subject recipients : Option Str)
        (remote0 remote1 : List FilterClause → Except Str (List MessageSummary))
        (msgs : List MessageSummary),
        buildFilterB subject recipients ≠ [] →
        remote0 (buildFilterB subject recipients) = Except.ok [] →
        remote1 (buildFilterB subject recipients) = Except.ok msgs →
        msgs.filter (validB subject recipients) = [] →
        searchB subject recipients remote0 = SearchOutcome.notFound ∧
        searchB subject recipients remote1 = SearchOutcome.notFound ∧
        resolveB subject recipients remote0 = ResolutionStep.respond 404 ∧
        resolveB subject recipients remote1 = ResolutionStep.respond 404) := by
  constructor
  · intro subject recipients snippet remote0 remote1 msgs translate hne hr0 hr1 hfilt
    have hlen : ¬ (buildFilterA subject snippet).length = 0 := by
      intro h0
      exact hne (List.length_eq_zero.mp h0)
    have hs0 : searchA subject recipients snippet remote0 = SearchOutcome.notFound := by
      simp only [searchA]
      rw [if_neg hlen, hr0]
      simp [processCandidates]
    have hs1 : searchA subject recipients snippet remote1 = SearchOutcome.notFound := by
      simp only [searchA]
      rw [if_neg hlen, hr1]
      simp [processCandidates_eq_none _ _ hfilt]
    refine ⟨hs0, hs1, ?_, ?_⟩
    · simp [resolveA, hs0]
    · simp [resolveA, hs1]
  · intro subject recipients remote0 remote1 msgs hne hr0 hr1 hfilt
    have hlen : ¬ (buildFilterB subject recipients).length = 0 := by
      intro h0
      exact hne (List.length_eq_zero.mp h0)
    have hs0 : searchB subject recipients remote0 = SearchOutcome.notFound := by
      simp only [searchB]
      rw [if_neg hlen, hr0]
      simp [processCandidates]
    have hs1 : searchB subject recipients remote1 = SearchOutcome.notFound := by
      simp only [searchB]
      rw [if_neg hlen, hr1]
      simp [processCandidates_eq_none _ _ hfilt]
    refine ⟨hs0, hs1, ?_, ?_⟩
    · simp [resolveB, hs0]
    · simp [resolveB, hs1]

/-- C7 witness: concrete criteria, one remote returning no candidate and
one returning a candidate without recipients while a recipient was
expected. -/
theorem c7_witness :
    searchA (some "s".data) (some "a@x.com".data) none (fun _ => Except.ok []) =
      SearchOutcome.notFound ∧
    searchA (some "s".data) (some "a@x.com".data) none
      (fun _ => Except.ok [msgNoRecipients]) = SearchOutcome.notFound ∧
    resolveA none (some "s".data) (some "a@x.com".data) none true TranslateResult.invalid
      (fun _ => Except.ok []) = ResolutionStep.respond 404 ∧
    resolveA none (some "s".data) (some "a@x.com".data) none true TranslateResult.invalid
      (fun _ => Except.ok [msgNoRecipients]) = ResolutionStep.respond 404 :=
  c7_notfound_collapse.1 (some "s".data) (some "a@x.com".data) none
    (fun _ => Except.ok []) (fun _ => Except.ok [msgNoRecipients]) [msgNoRecipients]
    TranslateResult.invalid (by decide) rfl rfl (by decide)

/-- C8: a successful legacy-id translation short-circuits metadata
resolution for every remote collaborator and every fallback flag; a
failed translation with the fallback flag set makes resolution behave
exactly as if no legacy id had been supplied; a failed translation
without the fallback flag yields the immediate 400 client error for
every remote collaborator. -/
theorem c8_legacy_translation :
    (∀ (e t : Str) (subject recipients snippet : Option Str) (u : Bool)
        (remote : List FilterClause → Except Str (List MessageSummary)),
        e ≠ [] → jsTrim e ≠ [] → t ≠ [] →
        resolveA (some e) subject recipients snippet u (TranslateResult.ok t) remote =
          ResolutionStep.proceed t) ∧
    (∀ (e msg : Str) (subject recipients snippet : Option Str)
        (remote : List FilterClause → Except Str (List MessageSummary))
        (translate2 : TranslateResult),
        resolveA (some e) subject recipients snippet true (TranslateResult.err msg) remote =
          resolveA none subject recipients snippet true translate2 remote) ∧
    (∀ (e msg : Str) (subject recipients snippet : Option Str)
        (remote : List FilterClause → Except Str (List MessageSummary)),
        e ≠ [] → jsTrim e ≠ [] →
        resolveA (some e) subject recipients snippet false (TranslateResult.err msg) remote =
          ResolutionStep.respond 400) := by
  refine ⟨?_, ?_, ?_⟩
  · intro e t subject recipients snippet u remote he htr ht
    have h1 : (e == ([] : Str)) = false := beq_eq_false_iff_ne.mpr he
    have h2 : (jsTrim e == ([] : Str)) = false := beq_eq_false_iff_ne.mpr htr
    have h3 : (t == ([] : Str)) = false := beq_eq_false_iff_ne.mpr ht
    simp [resolveA, h1, h2, h3]
  · intro e msg subject recipients snippet remote translate2
    simp only [resolveA]
    by_cases hb : (!(e == ([] : Str)) && !(jsTrim e == ([] : Str))) = true
    · simp [hb]
    · simp [hb]
  · intro e msg subject recipients snippet remote he htr
    have h1 : (e == ([] : Str)) = false := beq_eq_false_iff_ne.mpr he
    have h2 : (jsTrim e == ([] : Str)) = false := beq_eq_false_iff_ne.mpr htr
    simp [resolveA, h1, h2]

/-- C8 witness: a successful translation at concrete inputs, with the
fallback flag off and a remote collaborator that would find nothing. -/
theorem c8_witness :
    resolveA (some "ews1".data) (some "s".data) none none false (TranslateResult.ok "gid".data)
      (fun _ => Except.ok []) = ResolutionStep.proceed "gid".data :=
  c8_legacy_translation.1 "ews1".data "gid".data (some "s".data) none none false
    (fun _ => Except.ok []) (by decide) (by decide) (by decide)

/-- C9: an attachment of unknown declared type is skipped for every post
collaborator; a known type missing its required payload is skipped; a
failing post is caught into the per-attachment result; the loop handles
every attachment of the list exactly once, one result each, and the send
step still runs and the overall phase still succeeds whatever the
individual outcomes were. -/
theorem c9_attachment_tolerance :
    (∀ (post : AttachmentData → Except Str Unit) (a : Attachment),
        a.odataType ≠ fileAttachmentType → a.odataType ≠ itemAttachmentType →
        a.odataType ≠ referenceAttachmentType →
        copyAttachment post a = AttachStepResult.skippedUnsupported) ∧
    (∀ (post : AttachmentData → Except Str Unit) (a : Attachment),
        a.odataType = fileAttachmentType → truthyStr a.contentBytes = false →
        copyAttachment post a = AttachStepResult.skippedMissingData) ∧
    (∀ (post : AttachmentData → Except Str Unit) (a : Attachment),
        a.odataType = itemAttachmentType → truthyStr a.item = false →
        copyAttachment post a = AttachStepResult.skippedMissingData) ∧
    (∀ (post : AttachmentData → Except Str Unit) (a : Attachment),
        a.odataType = referenceAttachmentType →
        truthyStr a.sourceUrl = false ∨ truthyStr a.providerType = false →
        copyAttachment post a = AttachStepResult.skippedMissingData) ∧
    (∀ (eMsg : Str) (a : Attachment),
        a.odataType = fileAttachmentType → truthyStr a.contentBytes = true →
        copyAttachment (fun _ => Except.error eMsg) a = AttachStepResult.postFailed eMsg) ∧
    (∀ (post : AttachmentData → Except Str Unit) (a : Attachment) (atts : List Attachment),
        copyAllAttachments post (a :: atts) =
          copyAttachment post a :: copyAllAttachments post atts) ∧
    (∀ (post : AttachmentData → Except Str Unit) (atts : List Attachment),
        (copyAllAttachments post atts).length = atts.length) ∧
    (∀ (post : AttachmentData → Except Str Unit) (atts : List Attachment),
        forwardAttachmentsAndSend post (Except.ok ()) atts =
          Except.ok (copyAllAttachments post atts)) := by
  have dfi : (fileAttachmentType == itemAttachmentType) = false := by decide
  have dfr : (fileAttachmentType == referenceAttachmentType) = false := by decide
  have dif : (itemAttachmentType == fileAttachmentType) = false := by decide
  have dir : (itemAttachmentType == referenceAttachmentType) = false := by decide
  have drf : (referenceAttachmentType == fileAttachmentType) = false := by decide
  have dri : (referenceAttachmentType == itemAttachmentType) = false := by decide
  refine ⟨?_, ?_, ?_, ?_, ?_, ?_, ?_, ?_⟩
  · intro post a h1 h2 h3
    have b1 : (a.odataType == fileAttachmentType) = false := beq_eq_false_iff_ne.mpr h1
    have b2 : (a.odataType == itemAttachmentType) = false := beq_eq_false_iff_ne.mpr h2
    have b3 : (a.odataType == referenceAttachmentType) = false := beq_eq_false_iff_ne.mpr h3
    simp [copyAttachment, b1, b2, b3]
  · intro post a hty hcb
    have tnone : truthyStr (none : Option Str) = false := rfl
    simp [copyAttachment, hty, hcb, dfi, dfr, tnone]
  · intro post a hty hit
    have tnone : truthyStr (none : Option Str) = false := rfl
    simp [copyAttachment, hty, hit, dif, dir, tnone]
  · intro post a hty hsp
    have tnone : truthyStr (none : Option Str) = false := rfl
    rcases hsp with h | h
    · simp [copyAttachment, hty, h, drf, dri, tnone]
    · simp [copyAttachment, hty, h, drf, dri, tnone]
  · intro eMsg a hty hcb
    simp [copyAttachment, hty, hcb]
  · intro post a atts
    simp [copyAllAttachments]
  · intro post atts
    simp [copyAllAttachments]
  · intro post atts
    rfl

/-- C9 witness: an attachment with an unrecognised type marker is skipped
even under a post collaborator that always fails. -/
theorem c9_witness :
    copyAttachment (fun _ => Except.error "boom".data) unknownAttachment =
      AttachStepResult.skippedUnsupported :=
  c9_attachment_tolerance.1 (fun _ => Except.error "boom".data) unknownAttachment
    (by decide) (by decide) (by decide)

/-- C10 counterexample: in the subject+recipients variant a whitespace-only
subject is not treated as absent by the local validation: with identical
candidates and recipients, the whitespace-only subject excludes a
candidate that the absent subject accepts. -/
theorem c10_counterexample :
    jsTrim wsOnly = [] ∧
    validB (some wsOnly) (some "a@x.com".data) helloMsg = false ∧
    validB none (some "a@x.com".data) helloMsg = true ∧
    searchB (some wsOnly) (some "a@x.com".data) (fun _ => Except.ok [helloMsg]) =
      SearchOutcome.notFound ∧
    searchB none (some "a@x.com".data) (fun _ => Except.ok [helloMsg]) =
      SearchOutcome.found helloMsg.id := by
  refine ⟨by decide, by decide, by decide, by decide, by decide⟩

/-- C10 (amended): fields that encode to empty contribute no clause to the
remote filter in either variant and, in the subject+snippet variant,
behave exactly as absent throughout (including the insufficient-criteria
failure and the recipient list); but in the subject+recipients variant a
supplied nonempty whitespace-only subject still activates the local
subject predicate, which then accepts exactly the candidates whose
subject normalises to empty. -/
theorem c10_blank_fields :
    (∀ (s recipients snippet : Option Str)
        (remote : List FilterClause → Except Str (List MessageSummary)),
        encodeOData s = [] →
        searchA s recipients snippet remote = searchA none recipients snippet remote) ∧
    (∀ (subject recipients c : Option Str)
        (remote : List FilterClause → Except Str (List MessageSummary)),
        encodeOData c = [] →
        searchA subject recipients c remote = searchA subject recipients none remote) ∧
    (∀ (subject r snippet : Option Str)
        (remote : List FilterClause → Except Str (List MessageSummary)),
        fullRecipientList r = [] →
        searchA subject r snippet remote = searchA subject none snippet remote) ∧
    (∀ (s c r : Option Str) (remote : List FilterClause → Except Str (List MessageSummary)),
        encodeOData s = [] → encodeOData c = [] →
        searchA s r c remote = SearchOutcome.insufficientCriteria) ∧
    (∀ (s r : Option Str), encodeOData s = [] → buildFilterB s r = buildFilterB none r) ∧
    (∀ (s : Str) (m : MessageSummary), s ≠ [] → encodeOData (some s) = [] →
        subjectMatchB (some s) m = (normalizedSubject m == ([] : Str))) := by
  refine ⟨?_, ?_, ?_, ?_, ?_, ?_⟩
  · intro s recipients snippet remote h
    have hb : buildFilterA s snippet = buildFilterA none snippet := by
      simp only [buildFilterA]
      rw [h]
      simp [encodeOData]
    simp only [searchA]
    rw [hb]
  · intro subject recipients c remote h
    have hb : buildFilterA subject c = buildFilterA subject none := by
      simp only [buildFilterA]
      rw [h]
      simp [encodeOData]
    simp only [searchA]
    rw [hb]
  · intro subject r snippet remote h
    have hv : validA r = validA none := by
      funext m
      simp only [validA]
      rw [h]
      rfl
    simp only [searchA]
    rw [hv]
  · intro s c r remote h1 h2
    simp [searchA, buildFilterA, h1, h2]
  · intro s r h
    simp only [buildFilterB]
    rw [h]
    simp [encodeOData]
  · intro s m hs h
    simp [subjectMatchB, hs, h]

/-- C10 witness: the insufficiency component applied at whitespace-only
subject and snippet with a recipient present. -/
theorem c10_witness :
    searchA (some wsOnly) (some "a@x.com".data) (some wsOnly)
      (fun _ => Except.ok [helloMsg]) = SearchOutcome.insufficientCriteria :=
  c10_blank_fields.2.2.2.1 (some wsOnly) (some wsOnly) (some "a@x.com".data)
    (fun _ => Except.ok [helloMsg]) (by decide) (by decide)
